import Mathlib

/-!
# Verification of the TEE Oracle request/response pipeline

A shallow embedding, in Lean 4, of the core of the TEE oracle bridge:
the confidential-field codec (`utils/crypto.py`), the response extraction
and condition-verification engine (`services/response_processor.py`), the
on-chain encoder, the external fetch client's confidential-field
resolution (`services/api_client.py`), and the event-poll / fee logic of
the chain bridge (`services/blockchain.py`).

Modelling conventions:
* Python runtime values (decoded JSON, extraction results) are the tagged
  variant `PyValue`; Python `float` is modelled as an exact rational,
  Python `int` as `Int`, byte strings as `List Nat` with entries `< 256`.
* Code that can raise returns `Except String _`; a caught exception
  corresponds to matching on the `.error` case.
* External collaborators (the ECIES library, the `jsonpath_ng` query
  engine, the `eth_abi` encoder, the chain RPC) are parameters of the
  functions that call them, so every theorem is quantified over their
  behaviour.
-/

/-- A Python `float` (IEEE double): either a finite value — whose exact
rational value is carried, idealizing the 53-bit significand — or one of
the non-finite values `inf`, `-inf`, `nan`, which `json.loads` produces
for `Infinity`, `-Infinity` and `NaN` and which make `int()` raise. -/
inductive PyFloat where
  | finite (q : Rat)
  | inf
  | neginf
  | nan

/-- A Python runtime value, as produced by JSON decoding and manipulated by
the response processor.  `pfloat` carries a `PyFloat`; `pbytes` carries
the byte values. -/
inductive PyValue where
  | pnone
  | pbool (b : Bool)
  | pint (n : Int)
  | pfloat (f : PyFloat)
  | pstr (s : String)
  | plist (xs : List PyValue)
  | pdict (kvs : List (String × PyValue))
  | pbytes (bs : List Nat)

/-- ASCII lower-casing of one character (Python `str.lower` restricted to
ASCII, which covers every operator and Solidity type name in the system). -/
def charLower (c : Char) : Char :=
  if 'A' ≤ c ∧ c ≤ 'Z' then Char.ofNat (c.toNat + 32) else c

/-- ASCII `str.lower`. -/
def strLower (s : String) : String := ⟨s.data.map charLower⟩

/-- Python `pat in s` on strings (substring containment). -/
def strContainsSub (s pat : String) : Bool :=
  (List.range (s.data.length + 1)).any (fun i => pat.data.isPrefixOf (s.data.drop i))

/-- Python `s.startswith(p)`. -/
def strStartsWith (s p : String) : Bool := p.data.isPrefixOf s.data

/-- Python `s.endswith(p)`. -/
def strEndsWith (s p : String) : Bool := p.data.isSuffixOf s.data

/-- Python truthiness (`bool(value)`) over the modelled value shapes. -/
def pyTruthy : PyValue → Bool
  | .pnone => false
  | .pbool b => b
  | .pint n => n != 0
  | .pfloat (.finite q) => q != 0
  | .pfloat _ => true
  | .pstr s => s != ""
  | .plist xs => !xs.isEmpty
  | .pdict kvs => !kvs.isEmpty
  | .pbytes bs => !bs.isEmpty

/-- The numeric view used by Python's cross-type numeric comparisons:
`bool` counts as 0/1, `int` and `float` by value. -/
def numView : PyValue → Option PyFloat
  | .pbool b => some (.finite (if b then 1 else 0))
  | .pint n => some (.finite (n : Rat))
  | .pfloat f => some f
  | _ => none

/-- Python `==` between numeric values: by value for finite numbers and
the infinities; `nan` is unequal to everything, itself included. -/
def pyFloatEqB : PyFloat → PyFloat → Bool
  | .finite a, .finite b => a == b
  | .inf, .inf => true
  | .neginf, .neginf => true
  | _, _ => false

/-- Python ordering between numeric values: `none` means unordered (every
comparison involving `nan` is false). -/
def pyFloatCmp : PyFloat → PyFloat → Option Ordering
  | .nan, _ => none
  | _, .nan => none
  | .finite a, .finite b => some (compare a b)
  | .finite _, .inf => some .lt
  | .finite _, .neginf => some .gt
  | .inf, .finite _ => some .gt
  | .inf, .inf => some .eq
  | .inf, .neginf => some .gt
  | .neginf, .finite _ => some .lt
  | .neginf, .inf => some .lt
  | .neginf, .neginf => some .eq

mutual

/-- Python `str(value)`.  Exact for `None`, booleans, integers and strings
(the only shapes any claim evaluates `str` on); the renderings of floats,
lists, dicts and byte strings are simplified placeholders. -/
def pyStr : PyValue → String
  | .pnone => "None"
  | .pbool b => if b then "True" else "False"
  | .pint n => toString n
  | .pfloat (.finite q) => toString q.num ++ (if q.den == 1 then ".0" else "/" ++ toString q.den)
  | .pfloat .inf => "inf"
  | .pfloat .neginf => "-inf"
  | .pfloat .nan => "nan"
  | .pstr s => s
  | .plist xs => "[" ++ String.intercalate ", " (pyStrList xs) ++ "]"
  | .pdict kvs => "dict(" ++ String.intercalate ", " (pyStrDict kvs) ++ ")"
  | .pbytes bs => "bytes(" ++ String.intercalate ", " (bs.map toString) ++ ")"

def pyStrList : List PyValue → List String
  | [] => []
  | x :: xs => pyStr x :: pyStrList xs

def pyStrDict : List (String × PyValue) → List String
  | [] => []
  | (k, v) :: kvs => (k ++ ": " ++ pyStr v) :: pyStrDict kvs

end

mutual

/-- Python `==`: numeric values compare by value across `bool`/`int`/`float`,
strings, lists and byte strings structurally; values of unrelated types are
unequal (never an error). -/
def pyEq : PyValue → PyValue → Bool
  | .pstr s, .pstr t => s == t
  | .pnone, .pnone => true
  | .plist xs, .plist ys => pyEqList xs ys
  | .pdict xs, .pdict ys => pyEqDict xs ys
  | .pbytes xs, .pbytes ys => xs == ys
  | a, b =>
    match numView a, numView b with
    | some x, some y => pyFloatEqB x y
    | _, _ => false

def pyEqList : List PyValue → List PyValue → Bool
  | [], [] => true
  | x :: xs, y :: ys => pyEq x y && pyEqList xs ys
  | _, _ => false

def pyEqDict : List (String × PyValue) → List (String × PyValue) → Bool
  | [], [] => true
  | (k, v) :: xs, (l, w) :: ys => k == l && pyEq v w && pyEqDict xs ys
  | _, _ => false

end

/-- Python ordering comparison (`<`, `<=`, `>`, `>=`): defined between
numeric values (`none` = unordered, for `nan`) and between strings
(lexicographic by code point); any other combination raises
`TypeError`. -/
def pyCmpOrd (a b : PyValue) : Except String (Option Ordering) :=
  match numView a, numView b with
  | some x, some y => .ok (pyFloatCmp x y)
  | _, _ =>
    match a, b with
    | .pstr s, .pstr t => .ok (some (compare s t))
    | _, _ => .error "TypeError: values are not orderable"

/-- Python `int()` truncation toward zero of an exact rational. -/
def ratTrunc (q : Rat) : Int := q.num.tdiv q.den

/-- Sum a list of decimal digit characters into a natural number, failing on
a non-digit. -/
def digitsVal (cs : List Char) : Option Nat :=
  cs.foldl
    (fun acc c =>
      match acc with
      | some n => if c.isDigit then some (n * 10 + (c.toNat - 48)) else none
      | none => none)
    (some 0)

/-- Python `float(string)`, modelled for the decimal-literal subset
(optional surrounding whitespace, optional sign, digits with an optional
fractional part).  Exponent, `inf` and `nan` forms — which no request in
the claims exercises — are treated as parse failures. -/
def parsePyFloat (s : String) : Except String Rat :=
  let cs := (s.data.dropWhile (·.isWhitespace)).reverse.dropWhile (·.isWhitespace) |>.reverse
  let (sgn, cs) : Int × List Char :=
    match cs with
    | '-' :: rest => (-1, rest)
    | '+' :: rest => (1, rest)
    | _ => (1, cs)
  let ip := cs.takeWhile (· ≠ '.')
  let rest := cs.dropWhile (· ≠ '.')
  match rest with
  | [] =>
    match digitsVal ip with
    | some v => if ip.isEmpty then .error "ValueError: could not convert string to float"
                else .ok (mkRat (sgn * v) 1)
    | none => .error "ValueError: could not convert string to float"
  | '.' :: fp =>
    if fp.contains '.' then .error "ValueError: could not convert string to float"
    else
      match digitsVal ip, digitsVal fp with
      | some iv, some fv =>
        if ip.isEmpty ∧ fp.isEmpty then .error "ValueError: could not convert string to float"
        else .ok (mkRat (sgn * (iv * 10 ^ fp.length + fv)) (10 ^ fp.length))
      | _, _ => .error "ValueError: could not convert string to float"
  | _ => .error "ValueError: could not convert string to float"

/-- Python `float(value)`: numbers by value, booleans as 0/1, strings and
ASCII byte strings via the literal parser; anything else raises.  Large
integers whose conversion to double would overflow are idealized as
exact. -/
def pyFloat : PyValue → Except String PyFloat
  | .pbool b => .ok (.finite (if b then 1 else 0))
  | .pint n => .ok (.finite (n : Rat))
  | .pfloat f => .ok f
  | .pstr s => (parsePyFloat s).map .finite
  | .pbytes bs =>
    if bs.all (· < 128) then (parsePyFloat ⟨bs.map Char.ofNat⟩).map .finite
    else .error "ValueError: could not convert string to float"
  | _ => .error "TypeError: float() argument"

/-! ## UTF-8 (Python `str.encode('utf-8')` / `bytes.decode('utf-8')`) -/

/-- The UTF-8 encoding of one code point (RFC 3629). -/
def utf8EncodeChar (c : Char) : List Nat :=
  let n := c.toNat
  if n < 0x80 then [n]
  else if n < 0x800 then [0xC0 + n / 64, 0x80 + n % 64]
  else if n < 0x10000 then [0xE0 + n / 4096, 0x80 + n / 64 % 64, 0x80 + n % 64]
  else [0xF0 + n / 262144, 0x80 + n / 4096 % 64, 0x80 + n / 64 % 64, 0x80 + n % 64]

/-- UTF-8 encoding of a character sequence. -/
def utf8Bytes : List Char → List Nat
  | [] => []
  | c :: cs => utf8EncodeChar c ++ utf8Bytes cs

/-- UTF-8 encoding of a string (Python `s.encode('utf-8')`,
`Web3.to_bytes(text=s)`). -/
def strUtf8 (s : String) : List Nat := utf8Bytes s.data

mutual

/-- Strict UTF-8 decoding (Python `bytes.decode('utf-8')`): rejects stray
or missing continuation bytes, overlong forms, surrogate code points and
out-of-range values.  The continuation-byte handling of the 2-, 3- and
4-byte forms lives in the three `utf8DecodeTail` helpers below. -/
def utf8Decode : List Nat → Option (List Char)
  | [] => some []
  | b1 :: rest =>
    if b1 < 128 then (utf8Decode rest).map (fun cs => Char.ofNat b1 :: cs)
    else if b1 < 194 then none
    else if b1 < 224 then utf8DecodeTail1 b1 rest
    else if b1 < 240 then utf8DecodeTail2 b1 rest
    else if b1 < 245 then utf8DecodeTail3 b1 rest
    else none
  termination_by structural l => l

def utf8DecodeTail1 (b1 : Nat) : List Nat → Option (List Char)
  | b2 :: rest =>
    if 128 ≤ b2 ∧ b2 < 192 then
      (utf8Decode rest).map (fun cs => Char.ofNat ((b1 - 192) * 64 + (b2 - 128)) :: cs)
    else none
  | [] => none
  termination_by structural l => l

def utf8DecodeTail2 (b1 : Nat) : List Nat → Option (List Char)
  | b2 :: b3 :: rest =>
    if (128 ≤ b2 ∧ b2 < 192) ∧ (128 ≤ b3 ∧ b3 < 192)
        ∧ 2048 ≤ (b1 - 224) * 4096 + (b2 - 128) * 64 + (b3 - 128)
        ∧ ¬(55296 ≤ (b1 - 224) * 4096 + (b2 - 128) * 64 + (b3 - 128)
            ∧ (b1 - 224) * 4096 + (b2 - 128) * 64 + (b3 - 128) < 57344) then
      (utf8Decode rest).map
        (fun cs => Char.ofNat ((b1 - 224) * 4096 + (b2 - 128) * 64 + (b3 - 128)) :: cs)
    else none
  | _ => none
  termination_by structural l => l

def utf8DecodeTail3 (b1 : Nat) : List Nat → Option (List Char)
  | b2 :: b3 :: b4 :: rest =>
    if (128 ≤ b2 ∧ b2 < 192) ∧ (128 ≤ b3 ∧ b3 < 192) ∧ (128 ≤ b4 ∧ b4 < 192)
        ∧ 65536 ≤ (b1 - 240) * 262144 + (b2 - 128) * 4096 + (b3 - 128) * 64 + (b4 - 128)
        ∧ (b1 - 240) * 262144 + (b2 - 128) * 4096 + (b3 - 128) * 64 + (b4 - 128) < 1114112 then
      (utf8Decode rest).map
        (fun cs =>
          Char.ofNat ((b1 - 240) * 262144 + (b2 - 128) * 4096 + (b3 - 128) * 64 + (b4 - 128))
            :: cs)
    else none
  | _ => none
  termination_by structural l => l

end

/-! ## Data model (`models/request.py`, `models/response.py`) -/

/-- HTTP method enum matching the Solidity encoding. -/
inductive HttpMethod where
  | GET | POST | PUT | DELETE | PATCH
  deriving DecidableEq

/-- Key-value pair for headers or query parameters. -/
structure KeyValue where
  key : String
  value : String
  encrypted : Bool := false
  deriving DecidableEq

/-- Condition for response verification matching the Solidity struct. -/
structure Condition where
  operator : String
  value : String
  encrypted : Bool := false
  deriving DecidableEq

/-- Field to extract from a JSON response. -/
structure ResponseField where
  path : String
  responseType : String
  condition : Option Condition := none
  deriving DecidableEq

/-- `ResponseField.has_condition`: a condition is present and its operator
is non-empty. -/
def ResponseField.has_condition (f : ResponseField) : Bool :=
  match f.condition with
  | some c => c.operator != ""
  | none => false

/-- A REST API request decoded from the on-chain struct. -/
structure RequestData where
  method : HttpMethod
  url : String
  urlEncrypted : Bool := false
  headers : List KeyValue := []
  queryParams : List KeyValue := []
  body : String := ""
  bodyEncrypted : Bool := false
  responseFields : List ResponseField
  deriving DecidableEq

/-- A request event decoded from one on-chain log entry. -/
structure RequestEvent where
  requestId : String
  requester : String
  request : RequestData
  blockNumber : Nat
  transactionHash : String
  deriving DecidableEq

/-- An API response envelope (`models/response.py`). -/
structure ApiResponse where
  success : Bool
  status : Option Nat := none
  data : PyValue := .pnone
  error : Option String := none

/-- One extraction result per response field. -/
structure ExtractionResult where
  path : String
  value : PyValue
  type_hint : Option String := none

/-- All data extracted from one API response. -/
structure ExtractedData where
  success : Bool
  results : List ExtractionResult
  error : Option String := none

/-! ## External collaborators as parameters -/

/-- The confidential-field decryptor (`crypto_manager.decrypt_from_contract`
as seen by its callers): ciphertext in, plaintext out, may raise. -/
def Decryptor : Type := String → Except String String

/-- The `jsonpath_ng` engine as used on one field: `parse(path).find(data)`
returning the matched values, or raising (e.g. on a malformed path). -/
def PathFinder : Type := String → PyValue → Except String (List PyValue)

/-- The `eth_abi.abi.encode` collaborator: a list of type names and a list
of prepared values to a byte string, or raising on a type/value mismatch. -/
def AbiEncoder : Type := List String → List PyValue → Except String (List Nat)

/-! ## Condition and type engine (`ResponseProcessor._convert_to_type`,
`_get_type_hint`, `_verify_condition`) -/

/-- `ResponseProcessor._convert_to_type`: coerce a value to the declared
Solidity type; on an internal conversion error the original value is
returned unchanged (the source catches every exception). -/
def convert_to_type (value : PyValue) (type_name : String) : PyValue :=
  let normalized_type := strLower type_name
  if strContainsSub normalized_type "uint" || strContainsSub normalized_type "int" then
    match pyFloat value with
    | .ok (.finite q) => .pint (ratTrunc q)
    | .ok _ => value
    | .error _ => value
  else if normalized_type == "bool" || normalized_type == "boolean" then
    match value with
    | .pstr s => .pbool (["true", "yes", "1", "t", "y"].contains (strLower s))
    | v => .pbool (pyTruthy v)
  else if normalized_type == "string" then
    .pstr (pyStr value)
  else if normalized_type == "address" then
    let address := pyStr value
    let address := if strStartsWith address "0x" then address else "0x" ++ address
    .pstr (strLower address)
  else if strStartsWith normalized_type "bytes" then
    match value with
    | .pstr s => .pbytes (utf8Bytes s.data)
    | .pbytes bs => .pbytes bs
    | v => .pbytes (utf8Bytes (pyStr v).data)
  else
    value

/-- `ResponseProcessor._get_type_hint`: infer the Solidity type tag from the
runtime shape of a value. -/
def get_type_hint : PyValue → Option String
  | .pnone => none
  | .pbool _ => some "bool"
  | .pint n => some (if 0 ≤ n then "uint256" else "int256")
  | .pfloat _ => some "int256"
  | .pstr _ => some "string"
  | .plist _ => some "array"
  | .pdict _ => some "object"
  | .pbytes _ => some "bytes"

/-- The body of the `try` block of `ResponseProcessor._verify_condition`:
decrypt the condition value if flagged, coerce both sides to the declared
response type, and apply the operator.  Any raised exception surfaces as
`.error`. -/
def verify_condition_core (dec : Decryptor) (field : ResponseField) (cond : Condition)
    (value : PyValue) : Except String Bool := do
  let condition_value ← if cond.encrypted then dec cond.value else pure cond.value
  let converted_value := convert_to_type value field.responseType
  let converted_condition := convert_to_type (.pstr condition_value) field.responseType
  let op := strLower cond.operator
  if op == "eq" || op == "equals" then
    pure (pyEq converted_value converted_condition)
  else if op == "neq" || op == "not_equals" then
    pure (!pyEq converted_value converted_condition)
  else if op == "gt" || op == "greater_than" then
    (pyCmpOrd converted_value converted_condition).map (· == some .gt)
  else if op == "gte" || op == "greater_than_or_equals" then
    (pyCmpOrd converted_value converted_condition).map
      (fun o => o == some Ordering.gt || o == some Ordering.eq)
  else if op == "lt" || op == "less_than" then
    (pyCmpOrd converted_value converted_condition).map (· == some .lt)
  else if op == "lte" || op == "less_than_or_equals" then
    (pyCmpOrd converted_value converted_condition).map
      (fun o => o == some Ordering.lt || o == some Ordering.eq)
  else if op == "contains" then
    pure (strContainsSub (pyStr converted_value) (pyStr converted_condition))
  else if op == "startswith" then
    pure (strStartsWith (pyStr converted_value) (pyStr converted_condition))
  else if op == "endswith" then
    pure (strEndsWith (pyStr converted_value) (pyStr converted_condition))
  else
    pure false

/-- `ResponseProcessor._verify_condition`: every path — missing condition,
successful evaluation, or a caught exception — produces a boolean-typed
`ExtractionResult`; a caught exception yields value `False`. -/
def verify_condition (dec : Decryptor) (field : ResponseField) (value : PyValue) :
    ExtractionResult :=
  match field.condition with
  | none => { path := field.path, value := .pbool false, type_hint := some "bool" }
  | some cond =>
    match verify_condition_core dec field cond value with
    | .ok result => { path := field.path, value := .pbool result, type_hint := some "bool" }
    | .error _ => { path := field.path, value := .pbool false, type_hint := some "bool" }

/-- The per-field `try` block of `ResponseProcessor._extract_data` in the
structured-data branch: run the path query, take the first match, verify a
declared condition or infer a type hint; a caught exception (a failing
path query) degrades to a null-value, null-type result. -/
def extract_field (pf : PathFinder) (dec : Decryptor) (data : PyValue)
    (field : ResponseField) : ExtractionResult :=
  match pf field.path data with
  | .error _ => { path := field.path, value := .pnone, type_hint := none }
  | .ok [] => { path := field.path, value := .pnone, type_hint := none }
  | .ok (value :: _) =>
    if field.has_condition then verify_condition dec field value
    else { path := field.path, value := value, type_hint := get_type_hint value }

/-- `ResponseProcessor._extract_data`.  A failed fetch short-circuits to
`success := false`.  A plain-string body takes the string branch, whose
loop body passes the whole `ResponseField` object as the `path` argument
of `ExtractionResult` — pydantic v2 rejects a model instance for a `str`
field, so with at least one response field this branch raises a
`ValidationError` (modelled as `.error`).  A structured body is processed
field by field. -/
def extract_data (pf : PathFinder) (dec : Decryptor) (fields : List ResponseField)
    (api_response : ApiResponse) : Except String ExtractedData :=
  if api_response.success = false then
    .ok { success := false, results := [], error := api_response.error }
  else
    match api_response.data with
    | .pstr _ =>
      match fields with
      | [] => .ok { success := true, results := [], error := none }
      | _ :: _ => .error "ValidationError: path accepts str, got ResponseField"
    | raw_data =>
      .ok { success := true
            results := fields.map (extract_field pf dec raw_data)
            error := none }

/-- Sequential effectful map over `Except`, mirroring a Python `for` loop
that appends to a result list and lets the first exception propagate. -/
def mapE {α β : Type} (f : α → Except String β) : List α → Except String (List β)
  | [] => .ok []
  | a :: as => do
    let b ← f a
    let bs ← mapE f as
    .ok (b :: bs)

/-! ## On-chain encoder (`ResponseProcessor._prepare_value_for_encoding`,
`_encode_data`) -/

/-- Python `result.type_hint or "bytes"`: `None` and the empty string are
falsy and default to `"bytes"`. -/
def typeHintOrBytes : Option String → String
  | none => "bytes"
  | some s => if s == "" then "bytes" else s

/-- Python `extracted_data.error or "Unknown error"`: both `None` and the
empty string are falsy and yield the fixed default. -/
def errorOrUnknown : Option String → String
  | none => "Unknown error"
  | some s => if s == "" then "Unknown error" else s

/-- The exact product magnitude at which a double multiplication rounds to
infinity: `2^1024 - 2^970` (halfway between the largest finite double and
`2^1024`), written as a literal so that it evaluates by kernel
reduction. -/
def dblOverflowNum : Int :=
  179769313486231580793728971405303415079934132710037826936173778980444968292764750946649017977587207096330286416692887910946555547851940402630657488671505820681908902000708383676273854845817711531764475730270069855571366959622842914819860834936475292719074168444365510704342711559699508093042880177904174497792

/-- Whether `value * 10**18` overflows the double range for a finite float
of exact value `q` (`10^18` is exactly representable, so the product is
exact before the final rounding, and rounding reaches infinity exactly at
`dblOverflowNum`). -/
def scaleOverflows (q : Rat) : Bool :=
  decide (dblOverflowNum * (q.den : Int) ≤ ((q.num * 1000000000000000000).natAbs : Int))

/-- `int(q * 10**18)` on a finite Python float of exact value `q`: scale
by `10^18` and truncate toward zero.  This idealizes the double-precision
product as exact; real Python rounds `value * 10**18` to the nearest
double before `int()`, so the integer can differ in the last few digits
(e.g. `int(1.1 * 10**18) = 1100000000000000128`, not the exact truncation
`1100000000000000088` of the double `1.1`).  No claim depends on the
exact scaled value. -/
def ratScaleTrunc (q : Rat) : Int :=
  (q.num * 1000000000000000000).tdiv q.den

/-- `ResponseProcessor._prepare_value_for_encoding`: substitute
type-appropriate defaults for `None` and scale floats by `10^18`.  For a
non-finite float, or a finite one whose scaled product overflows the
double range, `int(value * 10**18)` raises (`OverflowError`/`ValueError`)
— and this happens *before* the `try` block of `_encode_data`, so the
exception propagates. -/
def prepare_value_for_encoding (value : PyValue) (type_hint : String) :
    Except String PyValue :=
  match value with
  | .pnone =>
    if type_hint == "bool" then .ok (.pbool false)
    else if type_hint == "uint256" || type_hint == "int256" then .ok (.pint 0)
    else if type_hint == "string" then .ok (.pstr "")
    else if type_hint == "array" || type_hint == "object" then .ok (.plist [])
    else .ok (.pbytes [])
  | .pfloat (.finite q) =>
    if scaleOverflows q then .error "OverflowError: cannot convert float infinity to integer"
    else .ok (.pint (ratScaleTrunc q))
  | .pfloat .inf => .error "OverflowError: cannot convert float infinity to integer"
  | .pfloat .neginf => .error "OverflowError: cannot convert float infinity to integer"
  | .pfloat .nan => .error "ValueError: cannot convert float NaN to integer"
  | v => .ok v

/-- A float value that `_prepare_value_for_encoding` can scale without
raising: finite and below the double-overflow boundary. -/
def floatScaleOk : PyFloat → Bool
  | .finite q => !scaleOverflows q
  | _ => false

/-- The type-name list handed to `abi.encode`, in field order. -/
def encodeTypes (results : List ExtractionResult) : List String :=
  results.map (fun r => typeHintOrBytes r.type_hint)

/-- The prepared value list handed to `abi.encode`, in field order; the
first raising preparation propagates (the loop runs before the `try`). -/
def encodeValues (results : List ExtractionResult) : Except String (List PyValue) :=
  mapE (fun r => prepare_value_for_encoding r.value (typeHintOrBytes r.type_hint)) results

/-- `ResponseProcessor._encode_data`: `success = false` short-circuits to
the UTF-8 bytes of the error message (`"Unknown error"` when the message
is absent or empty); otherwise the values are prepared — a raising
preparation propagates, since it happens before the `try` — and the
prepared (type, value) pairs are handed to `abi.encode`, whose exceptions
degrade to the UTF-8 bytes of a synthetic `"Encoding error: …"`
message. -/
def encode_data (abiEnc : AbiEncoder) (extracted_data : ExtractedData) :
    Except String (List Nat) :=
  if extracted_data.success = false then
    .ok (strUtf8 (errorOrUnknown extracted_data.error))
  else
    encodeValues extracted_data.results >>= fun values =>
    .ok (match abiEnc (encodeTypes extracted_data.results) values with
         | .ok bs => bs
         | .error e => strUtf8 ("Encoding error: " ++ e))

/-! ## Base64 (Python `base64.b64encode` / `base64.b64decode`) -/

/-- The standard base64 alphabet. -/
def b64Chars : List Char :=
  "ABCDEFGHIJKLMNOPQRSTUVWXYZabcdefghijklmnopqrstuvwxyz0123456789+/".data

/-- The alphabet character of a sextet. -/
def b64Char (n : Nat) : Char := b64Chars.getD n 'A'

/-- The sextet of an alphabet character, if any. -/
def b64Idx (c : Char) : Option Nat := b64Chars.findIdx? (fun d => d == c)

/-- Standard base64 encoding of a byte sequence, with `=` padding. -/
def b64EncodeChars : List Nat → List Char
  | [] => []
  | [a] => [b64Char (a / 4), b64Char (a % 4 * 16), '=', '=']
  | [a, b] => [b64Char (a / 4), b64Char (a % 4 * 16 + b / 16), b64Char (b % 16 * 4), '=']
  | a :: b :: c :: rest =>
    b64Char (a / 4) :: b64Char (a % 4 * 16 + b / 16) :: b64Char (b % 16 * 4 + c / 64) ::
      b64Char (c % 64) :: b64EncodeChars rest

/-- Standard base64 decoding: four-character groups, `=` padding only in
the final group; anything else fails (Python raises `binascii.Error`). -/
def b64DecodeChars : List Char → Option (List Nat)
  | [] => some []
  | c1 :: c2 :: c3 :: c4 :: rest =>
    (b64Idx c1).bind fun a =>
    (b64Idx c2).bind fun b =>
    if c3 = '=' then
      if c4 = '=' ∧ rest = [] then some [a * 4 + b / 16] else none
    else
      (b64Idx c3).bind fun c =>
      if c4 = '=' then
        if rest = [] then some [a * 4 + b / 16, b % 16 * 16 + c / 4] else none
      else
        (b64Idx c4).bind fun d =>
        (b64DecodeChars rest).bind fun tl =>
        some ((a * 4 + b / 16) :: (b % 16 * 16 + c / 4) :: (c % 4 * 64 + d) :: tl)
  | _ => none

/-! ## Confidential field codec (`utils/crypto.py`, `CryptoManager`) -/

/-- The external ECIES library (`ecies.encrypt` / `ecies.decrypt`) as an
opaque deterministic scheme over hex-string keys and byte sequences;
`decrypt` returns `none` where the library raises. -/
structure EciesScheme where
  eciesEncrypt : String → List Nat → List Nat
  eciesDecrypt : String → List Nat → Option (List Nat)

/-- The state of the process-wide `CryptoManager` singleton. -/
structure CryptoManager where
  isInit : Bool
  private_key : Option String
  public_key : Option String

/-- `CryptoManager.encrypt_for_contract`: UTF-8 encode, ECIES-encrypt for
the public key, base64-encode; raises when uninitialized or when the
public key is absent (Python `not self._public_key` is also true of an
empty string). -/
def encrypt_for_contract (E : EciesScheme) (cm : CryptoManager) (data : String) :
    Except String String :=
  if cm.isInit = false then .error "Crypto manager not initialized"
  else
    match cm.public_key with
    | none => .error "Public key not set"
    | some pk =>
      if pk = "" then .error "Public key not set"
      else .ok ⟨b64EncodeChars (E.eciesEncrypt pk (strUtf8 data))⟩

/-- `CryptoManager.decrypt_from_contract`: base64-decode, ECIES-decrypt
with the private key, UTF-8 decode; raises when uninitialized, when the
private key is absent, or when any of the three steps fails. -/
def decrypt_from_contract (E : EciesScheme) (cm : CryptoManager)
    (encrypted_data_b64 : String) : Except String String :=
  if cm.isInit = false then .error "Crypto manager not initialized"
  else
    match cm.private_key with
    | none => .error "Private key not available"
    | some sk =>
      if sk = "" then .error "Private key not available"
      else
        match b64DecodeChars encrypted_data_b64.data with
        | none => .error "binascii.Error: invalid base64-encoded string"
        | some encrypted_bytes =>
          match E.eciesDecrypt sk encrypted_bytes with
          | none => .error "ecies: decryption failed"
          | some decrypted_bytes =>
            match utf8Decode decrypted_bytes with
            | none => .error "UnicodeDecodeError"
            | some cs => .ok ⟨cs⟩

/-! ## External fetch client (`ApiClient._process_encrypted_fields`) -/

/-- One header / query parameter of the loop bodies of
`_process_encrypted_fields`: a flagged value is decrypted and re-flagged
`false`; an unflagged pair is kept as-is. -/
def processKeyValue (dec : Decryptor) (kv : KeyValue) : Except String KeyValue :=
  if kv.encrypted then do
    let decrypted_value ← dec kv.value
    .ok { key := kv.key, value := decrypted_value, encrypted := false }
  else .ok kv

/-- One response field of `_process_encrypted_fields`: the path and type
are copied; a present condition is rebuilt with its value decrypted when
flagged and its `encrypted` flag cleared. -/
def processResponseField (dec : Decryptor) (field : ResponseField) :
    Except String ResponseField :=
  match field.condition with
  | none => .ok { path := field.path, responseType := field.responseType, condition := none }
  | some c => do
    let condition_value ← if c.encrypted then dec c.value else pure c.value
    .ok { path := field.path, responseType := field.responseType
          condition := some { operator := c.operator, value := condition_value,
                              encrypted := false } }

/-- `ApiClient._process_encrypted_fields`: build a new `RequestData` with
the URL, body, headers and query parameters decrypted where flagged (flags
cleared), and — eagerly — every present condition's value decrypted where
flagged, with its flag cleared. -/
def process_encrypted_fields (dec : Decryptor) (request : RequestData) :
    Except String RequestData :=
  (if request.urlEncrypted then dec request.url else pure request.url) >>= fun url =>
  (if request.bodyEncrypted then dec request.body else pure request.body) >>= fun body =>
  mapE (processKeyValue dec) request.headers >>= fun headers =>
  mapE (processKeyValue dec) request.queryParams >>= fun queryParams =>
  mapE (processResponseField dec) request.responseFields >>= fun responseFields =>
  .ok { method := request.method
        url := url
        urlEncrypted := false
        headers := headers
        queryParams := queryParams
        body := body
        bodyEncrypted := false
        responseFields := responseFields }

/-! ## Chain bridge (`BlockchainService.poll_events`, `submit_response`) -/

/-- A raw chain log entry as returned by `get_logs`, before
`parse_request_event`. -/
structure RawEvent where
  blockNumber : Nat
  payload : String
  deriving DecidableEq

/-- The per-event loop of `poll_events`: each event is parsed and handed to
the pipeline callback inside a `try`/`except`, so neither a parse failure
nor a callback failure stops the loop.  The returned list is the trace of
pipeline invocations (the parsed events passed to the callback), in list
order. -/
def processEventLoop (parseEvent : RawEvent → Except String RequestEvent)
    (callback : RequestEvent → Except String Unit) : List RawEvent → List RequestEvent
  | [] => []
  | e :: rest =>
    match parseEvent e with
    | .error _ => processEventLoop parseEvent callback rest
    | .ok request_event =>
      match callback request_event with
      | .ok _ => request_event :: processEventLoop parseEvent callback rest
      | .error _ => request_event :: processEventLoop parseEvent callback rest

/-- `BlockchainService.poll_events`, one cycle: read the current height; if
it is not strictly above the cursor, do nothing; otherwise fetch the events
of the range `(cursor, current]`, run the per-event loop, and set the
cursor to the current height.  Returns the new cursor together with the
trace of pipeline invocations. -/
def poll_events (getPastEvents : Nat → Nat → List RawEvent)
    (parseEvent : RawEvent → Except String RequestEvent)
    (callback : RequestEvent → Except String Unit)
    (current_block last_processed_block : Nat) : Nat × List RequestEvent :=
  if current_block ≤ last_processed_block then
    (last_processed_block, [])
  else
    (current_block,
     processEventLoop parseEvent callback
       (getPastEvents (last_processed_block + 1) current_block))

/-- The `maxPriorityFeePerGas` of `submit_response`:
`min(Web3.to_wei(0.1, 'gwei'), int(gas_price * 0.8))`.  `0.1` gwei is
exactly `10^8` wei, and `int(g * 0.8)` is the exact truncation
`4 * g / 5` in natural-number division. -/
def priority_fee (gas_price : Nat) : Nat :=
  min 100000000 (4 * gas_price / 5)

/-- The `maxFeePerGas` of `submit_response`: `int(gas_price * 1.2)`, the
exact truncation `6 * g / 5`. -/
def max_fee (gas_price : Nat) : Nat :=
  6 * gas_price / 5

/-! ## Theorems -/

/-- `Except` bind on a success reduces to the continuation. -/
theorem except_bind_ok {α β : Type} (b : α) (g : α → Except String β) :
    (Except.ok b >>= g) = g b := rfl

/-- `Except` bind on a failure short-circuits. -/
theorem except_bind_error {α β : Type} (e : String) (g : α → Except String β) :
    ((Except.error e : Except String α) >>= g) = Except.error e := rfl

/-- C7: for every positive base fee observed at build time, the submitted
transaction's fee fields satisfy `maxPriorityFeePerGas ≤ maxFeePerGas` and
`maxFeePerGas ≥ baseFee`. -/
theorem fee_fields_ordered (gas_price : Nat) (h : 0 < gas_price) :
    priority_fee gas_price ≤ max_fee gas_price ∧ gas_price ≤ max_fee gas_price := by
  unfold priority_fee max_fee
  omega

/-- Witness for C7 at `gas_price = 5`: the priority fee is `min(10^8, 4) = 4`
and the max fee is `6`. -/
theorem fee_fields_ordered_witness :
    0 < 5 ∧ (priority_fee 5 ≤ max_fee 5 ∧ 5 ≤ max_fee 5) ∧ priority_fee 5 = 4 ∧ max_fee 5 = 6 :=
  ⟨by decide, fee_fields_ordered 5 (by decide), by decide, by decide⟩

/-- Counterexample to C5 as stated: at `ExtractedData{success:false,
error:""}` the program returns the UTF-8 bytes of `"Unknown error"` — the
empty error message is falsy in `extracted_data.error or "Unknown error"`
— not the UTF-8 bytes of the (empty) error message itself. -/
theorem encode_data_empty_error_cex :
    encode_data (fun _ _ => .ok []) (ExtractedData.mk false [] (some ""))
      = .ok (strUtf8 "Unknown error")
    ∧ strUtf8 "Unknown error" ≠ strUtf8 "" :=
  ⟨rfl, by decide⟩

/-- C5 (amended): on any `ExtractedData` with `success = false`,
`_encode_data` returns exactly the UTF-8 bytes of the error message, with
the fixed string `"Unknown error"` substituted when the message is absent
*or empty* (Python's `error or "Unknown error"` treats `""` as missing) —
whatever the ABI encoder would do. -/
theorem encode_data_failure_bytes (abiEnc : AbiEncoder) (extracted : ExtractedData)
    (h : extracted.success = false) :
    encode_data abiEnc extracted = .ok (strUtf8 (errorOrUnknown extracted.error))
    ∧ errorOrUnknown none = "Unknown error"
    ∧ errorOrUnknown (some "") = "Unknown error"
    ∧ (∀ s : String, s ≠ "" → errorOrUnknown (some s) = s) := by
  refine ⟨?_, rfl, rfl, ?_⟩
  · unfold encode_data
    rw [h]
    rfl
  · intro s hs
    simp [errorOrUnknown, beq_eq_false_iff_ne.mpr hs]

/-- Witness for C5: `encode` on `ExtractedData{success:false, error:"boom"}`
yields precisely the four UTF-8 bytes of `"boom"`. -/
theorem encode_data_failure_bytes_witness :
    (ExtractedData.mk false [] (some "boom")).success = false
    ∧ encode_data (fun _ _ => .ok []) (ExtractedData.mk false [] (some "boom"))
        = .ok [98, 111, 111, 109] :=
  ⟨rfl,
   ((encode_data_failure_bytes (fun _ _ => .ok []) (ExtractedData.mk false [] (some "boom"))
       rfl).1).trans (by rfl)⟩

/-- C8: for every field that carries a condition with a non-empty operator,
`_verify_condition` produces a boolean-typed result: the `type_hint` is
`"bool"` and the value is some Python boolean, whatever the field's own
declared `responseType` and whatever the decryptor does. -/
theorem verify_condition_boolean_result (dec : Decryptor) (field : ResponseField)
    (value : PyValue) (h : field.has_condition = true) :
    ∃ b : Bool, verify_condition dec field value =
      { path := field.path, value := .pbool b, type_hint := some "bool" } := by
  unfold verify_condition
  split
  · exact ⟨false, rfl⟩
  · split
    · exact ⟨_, rfl⟩
    · exact ⟨false, rfl⟩

/-- Witness for C8: a field with `Condition{operator:"gt", value:"10"}`
and extracted value `42` evaluates to the boolean `true` with type hint
`"bool"`. -/
theorem verify_condition_boolean_result_witness :
    (ResponseField.mk "x" "uint256" (some (Condition.mk "gt" "10" false))).has_condition = true
    ∧ verify_condition (fun _ => .error "unused")
        (ResponseField.mk "x" "uint256" (some (Condition.mk "gt" "10" false)))
        (.pint 42)
      = { path := "x", value := .pbool true, type_hint := some "bool" } :=
  ⟨rfl, by
    have hshape := verify_condition_boolean_result (fun _ => .error "unused")
      (ResponseField.mk "x" "uint256" (some (Condition.mk "gt" "10" false))) (.pint 42) rfl
    exact rfl⟩

/-- C10: for every field with a condition, an exception raised inside the
condition-verification `try` block (modelled by the core returning
`.error`) is caught and yields the boolean-typed result `False` — not the
null-value/null-type result used for other per-field failures. -/
theorem verify_condition_error_false (dec : Decryptor) (field : ResponseField)
    (cond : Condition) (value : PyValue) (e : String)
    (hc : field.condition = some cond)
    (he : verify_condition_core dec field cond value = .error e) :
    verify_condition dec field value =
      { path := field.path, value := .pbool false, type_hint := some "bool" } := by
  unfold verify_condition
  simp only [hc, he]

/-- Witness for C10: an encrypted condition value whose decryption raises a
`CryptoError` makes the core raise, and the field's result is the boolean
`false` with type hint `"bool"`. -/
theorem verify_condition_error_false_witness :
    (ResponseField.mk "p" "uint256" (some (Condition.mk "gt" "CIPH" true))).condition
      = some (Condition.mk "gt" "CIPH" true)
    ∧ verify_condition_core (fun _ => .error "CryptoError: decryption failed")
        (ResponseField.mk "p" "uint256" (some (Condition.mk "gt" "CIPH" true)))
        (Condition.mk "gt" "CIPH" true) (.pint 1)
      = .error "CryptoError: decryption failed"
    ∧ verify_condition (fun _ => .error "CryptoError: decryption failed")
        (ResponseField.mk "p" "uint256" (some (Condition.mk "gt" "CIPH" true)))
        (.pint 1)
      = { path := "p", value := .pbool false, type_hint := some "bool" } :=
  ⟨rfl, rfl,
   verify_condition_error_false (fun _ => .error "CryptoError: decryption failed")
     _ _ (.pint 1) "CryptoError: decryption failed" rfl rfl⟩

/-- The per-event loop invokes the pipeline on exactly the events that
parse, in list order, regardless of the outcome of each callback: a
callback failure is caught and does not affect the rest of the trace. -/
theorem processEventLoop_eq_filterMap (parseEvent : RawEvent → Except String RequestEvent)
    (callback : RequestEvent → Except String Unit) :
    ∀ l : List RawEvent,
      processEventLoop parseEvent callback l
        = l.filterMap (fun e => (parseEvent e).toOption)
  | [] => rfl
  | e :: rest => by
    unfold processEventLoop
    cases hp : parseEvent e with
    | error err =>
      simp [hp, Except.toOption, processEventLoop_eq_filterMap parseEvent callback rest]
    | ok request_event =>
      cases hcb : callback request_event <;>
        simp [hp, hcb, Except.toOption, processEventLoop_eq_filterMap parseEvent callback rest]

/-- C1: one poll cycle.  If the chain height is not strictly above the
cursor the cycle is a no-op (cursor unchanged, no pipeline invocation);
otherwise the bridge fetches the events of `(cursor, height]`, invokes the
pipeline once per parsed event in list (ascending-block) order — even when
some invocations throw, since per-event errors are caught — and the cursor
ends at the current height regardless of any per-event failure. -/
theorem poll_events_cycle (getPastEvents : Nat → Nat → List RawEvent)
    (parseEvent : RawEvent → Except String RequestEvent)
    (callback : RequestEvent → Except String Unit)
    (current_block last_processed_block : Nat) :
    (current_block ≤ last_processed_block →
      poll_events getPastEvents parseEvent callback current_block last_processed_block
        = (last_processed_block, []))
    ∧ (last_processed_block < current_block →
      poll_events getPastEvents parseEvent callback current_block last_processed_block
        = (current_block,
           (getPastEvents (last_processed_block + 1) current_block).filterMap
             (fun e => (parseEvent e).toOption))) := by
  constructor
  · intro h
    unfold poll_events
    rw [if_pos h]
  · intro h
    unfold poll_events
    rw [if_neg (by omega), processEventLoop_eq_filterMap]

/-- Simulated chain for the C1 witness: two request events, at blocks 101
and 103. -/
def pollSimEvents : Nat → Nat → List RawEvent :=
  fun _ _ => [{ blockNumber := 101, payload := "req-1" }, { blockNumber := 103, payload := "req-2" }]

/-- Event parser for the C1 witness (always succeeds). -/
def pollSimParse : RawEvent → Except String RequestEvent := fun e =>
  .ok { requestId := e.payload, requester := "0xrequester"
        request := { method := .GET, url := "https://x", responseFields := [] }
        blockNumber := e.blockNumber, transactionHash := "0xtx" }

/-- Pipeline callback for the C1 witness: the first event's pipeline
invocation throws. -/
def pollSimCallback : RequestEvent → Except String Unit := fun re =>
  if re.requestId = "req-1" then .error "pipeline failure" else .ok ()

/-- Witness for C1: cursor 100, height 105, two events in range, the first
pipeline invocation throwing — the pipeline runs exactly twice, in
ascending block order, and the cursor ends at 105. -/
theorem poll_events_cycle_witness :
    100 < 105
    ∧ poll_events pollSimEvents pollSimParse pollSimCallback 105 100
      = (105,
         [{ requestId := "req-1", requester := "0xrequester"
            request := { method := .GET, url := "https://x", responseFields := [] }
            blockNumber := 101, transactionHash := "0xtx" },
          { requestId := "req-2", requester := "0xrequester"
            request := { method := .GET, url := "https://x", responseFields := [] }
            blockNumber := 103, transactionHash := "0xtx" }]) :=
  ⟨by omega,
   ((poll_events_cycle pollSimEvents pollSimParse pollSimCallback 105 100).2
      (by omega)).trans (by rfl)⟩

/-- A preparation that raises on no element succeeds as a whole. -/
theorem mapE_isOk_of_forall {α β : Type} (f : α → Except String β) :
    ∀ l : List α, (∀ a ∈ l, (f a).isOk = true) → (mapE f l).isOk = true
  | [], _ => rfl
  | a :: as, h => by
    unfold mapE
    cases hf : f a with
    | error e =>
      have hcontra := h a (by simp)
      rw [hf] at hcontra
      exact Bool.noConfusion hcontra
    | ok b =>
      rw [except_bind_ok]
      cases hrest : mapE f as with
      | error e =>
        have hcontra := mapE_isOk_of_forall f as (fun x hx => h x (by simp [hx]))
        rw [hrest] at hcontra
        exact Bool.noConfusion hcontra
      | ok bs => rw [except_bind_ok]; rfl

/-- `_prepare_value_for_encoding` raises only on a float that is
non-finite or whose scaled product overflows. -/
theorem prepare_isOk (value : PyValue) (type_hint : String)
    (h : ∀ f : PyFloat, value = .pfloat f → floatScaleOk f = true) :
    (prepare_value_for_encoding value type_hint).isOk = true := by
  cases value with
  | pnone =>
    unfold prepare_value_for_encoding
    cases type_hint == "bool" <;>
      cases type_hint == "uint256" || type_hint == "int256" <;>
        cases type_hint == "string" <;>
          cases type_hint == "array" || type_hint == "object" <;>
            rfl
  | pfloat f =>
    have hok := h f rfl
    cases f with
    | finite q =>
      have hq : scaleOverflows q = false := by simpa [floatScaleOk] using hok
      simp only [prepare_value_for_encoding]
      rw [if_neg (by simp [hq])]
      rfl
    | inf => exact absurd hok (by simp [floatScaleOk])
    | neginf => exact absurd hok (by simp [floatScaleOk])
    | nan => exact absurd hok (by simp [floatScaleOk])
  | pbool b => rfl
  | pint n => rfl
  | pstr s => rfl
  | plist xs => rfl
  | pdict kvs => rfl
  | pbytes bs => rfl

/-- Counterexample to C6 as stated: encoding a successful extraction *can*
raise.  At a result carrying the float `inf` — which `json.loads` yields
for a JSON `Infinity` — `int(value * 10**18)` raises an `OverflowError`
inside `_prepare_value_for_encoding`, which runs before the `try` block of
`_encode_data`, so the exception propagates instead of degrading to an
error payload. -/
theorem encode_data_never_raises_cex :
    (ExtractedData.mk true
      [{ path := "x", value := .pfloat .inf, type_hint := some "int256" }] none).success = true
    ∧ encode_data (fun _ _ => .ok [])
        (ExtractedData.mk true
          [{ path := "x", value := .pfloat .inf, type_hint := some "int256" }] none)
      = .error "OverflowError: cannot convert float infinity to integer" :=
  ⟨rfl, rfl⟩

/-- C6 (amended): encoding a successful extraction does not raise provided
every float among the results is finite with a non-overflowing `10^18`
product — `None` values are substituted by type-appropriate defaults
(`false` for `bool`, `0` for the integer types, `""` for `string`, an
empty sequence for `array`/`object`, empty bytes otherwise), finite floats
are scaled by `10^18` and truncated to integers (double rounding
idealized as exact), non-finite floats make the preparation raise before
the `try`, and a raising ABI encoder degrades the whole payload to the
UTF-8 bytes of a synthetic `"Encoding error: …"` string.  In particular
the results `[{bool, true}, {uint256, None}]` are handed to the encoder
as `[true, 0]` with types `["bool", "uint256"]`. -/
theorem encode_data_success_total :
    (prepare_value_for_encoding .pnone "bool" = .ok (.pbool false)
      ∧ prepare_value_for_encoding .pnone "uint256" = .ok (.pint 0)
      ∧ prepare_value_for_encoding .pnone "int256" = .ok (.pint 0)
      ∧ prepare_value_for_encoding .pnone "string" = .ok (.pstr "")
      ∧ prepare_value_for_encoding .pnone "array" = .ok (.plist [])
      ∧ prepare_value_for_encoding .pnone "object" = .ok (.plist []))
    ∧ (∀ t : String,
        t ∉ (["bool", "uint256", "int256", "string", "array", "object"] : List String) →
        prepare_value_for_encoding .pnone t = .ok (.pbytes []))
    ∧ (∀ (q : Rat) (t : String), scaleOverflows q = false →
        prepare_value_for_encoding (.pfloat (.finite q)) t = .ok (.pint (ratScaleTrunc q)))
    ∧ (∀ t : String, (prepare_value_for_encoding (.pfloat .inf) t).isOk = false
        ∧ (prepare_value_for_encoding (.pfloat .nan) t).isOk = false)
    ∧ (∀ (abiEnc : AbiEncoder) (extracted : ExtractedData),
        extracted.success = true →
        (∀ r ∈ extracted.results, ∀ f : PyFloat, r.value = .pfloat f → floatScaleOk f = true) →
        (encode_data abiEnc extracted).isOk = true)
    ∧ (∀ (abiEnc : AbiEncoder) (extracted : ExtractedData) (values : List PyValue) (e : String),
        extracted.success = true →
        encodeValues extracted.results = .ok values →
        abiEnc (encodeTypes extracted.results) values = .error e →
        encode_data abiEnc extracted = .ok (strUtf8 ("Encoding error: " ++ e)))
    ∧ encodeTypes [{ path := "a", value := .pbool true, type_hint := some "bool" },
                   { path := "b", value := .pnone, type_hint := some "uint256" }]
        = ["bool", "uint256"]
    ∧ encodeValues [{ path := "a", value := .pbool true, type_hint := some "bool" },
                    { path := "b", value := .pnone, type_hint := some "uint256" }]
        = .ok [.pbool true, .pint 0] := by
  refine ⟨⟨rfl, rfl, rfl, rfl, rfl, rfl⟩, ?_, ?_, ?_, ?_, ?_, rfl, rfl⟩
  · intro t ht
    simp only [List.mem_cons, List.not_mem_nil, or_false, not_or] at ht
    obtain ⟨h1, h2, h3, h4, h5, h6⟩ := ht
    unfold prepare_value_for_encoding
    simp [beq_eq_false_iff_ne.mpr h1, beq_eq_false_iff_ne.mpr h2, beq_eq_false_iff_ne.mpr h3,
      beq_eq_false_iff_ne.mpr h4, beq_eq_false_iff_ne.mpr h5, beq_eq_false_iff_ne.mpr h6]
  · intro q t hq
    simp only [prepare_value_for_encoding]
    rw [if_neg (by simp [hq])]
  · intro t
    exact ⟨rfl, rfl⟩
  · intro abiEnc extracted hs hvals
    unfold encode_data
    rw [hs]
    simp only [Bool.true_eq_false, if_false]
    have hok : (encodeValues extracted.results).isOk = true :=
      mapE_isOk_of_forall _ extracted.results
        (fun r hr => prepare_isOk r.value (typeHintOrBytes r.type_hint) (hvals r hr))
    cases hv : encodeValues extracted.results with
    | error e => rw [hv] at hok; exact absurd hok (by simp [Except.isOk, Except.toBool])
    | ok values =>
      rw [except_bind_ok]
      cases abiEnc (encodeTypes extracted.results) values <;> rfl
  · intro abiEnc extracted values e hs hvals habi
    unfold encode_data
    rw [hs]
    simp only [Bool.true_eq_false, if_false]
    rw [hvals, except_bind_ok, habi]

/-- Witness for C6 (amended): the out-of-vocabulary default, a concrete
finite float scaling, the raising `inf` preparation, the no-raise case,
and the encoder-failure fallback, each at a concrete input; the result
list `[{bool,true},{uint256,None}]` reaches a raising encoder as
`["bool","uint256"] / [true, 0]` and still produces a payload. -/
theorem encode_data_success_total_witness :
    ("bytes32" ∉ (["bool", "uint256", "int256", "string", "array", "object"] : List String))
    ∧ prepare_value_for_encoding .pnone "bytes32" = .ok (.pbytes [])
    ∧ scaleOverflows (mkRat 3 2) = false
    ∧ prepare_value_for_encoding (.pfloat (.finite (mkRat 3 2))) "int256"
        = .ok (.pint (ratScaleTrunc (mkRat 3 2)))
    ∧ (prepare_value_for_encoding (.pfloat .inf) "int256").isOk = false
    ∧ (ExtractedData.mk true
        [{ path := "a", value := .pbool true, type_hint := some "bool" },
         { path := "b", value := .pnone, type_hint := some "uint256" }] none).success = true
    ∧ (encode_data (fun _ _ => (.ok [0] : Except String (List Nat)))
        (ExtractedData.mk true
          [{ path := "a", value := .pbool true, type_hint := some "bool" },
           { path := "b", value := .pnone, type_hint := some "uint256" }] none)).isOk = true
    ∧ encodeValues (ExtractedData.mk true
        [{ path := "a", value := .pbool true, type_hint := some "bool" },
         { path := "b", value := .pnone, type_hint := some "uint256" }] none).results
        = .ok [.pbool true, .pint 0]
    ∧ (fun (_ : List String) (_ : List PyValue) =>
        (.error "type mismatch" : Except String (List Nat)))
        (encodeTypes (ExtractedData.mk true
          [{ path := "a", value := .pbool true, type_hint := some "bool" },
           { path := "b", value := .pnone, type_hint := some "uint256" }] none).results)
        [.pbool true, .pint 0]
      = .error "type mismatch"
    ∧ encode_data
        (fun _ _ => (.error "type mismatch" : Except String (List Nat)))
        (ExtractedData.mk true
          [{ path := "a", value := .pbool true, type_hint := some "bool" },
           { path := "b", value := .pnone, type_hint := some "uint256" }] none)
      = .ok (strUtf8 "Encoding error: type mismatch") :=
  ⟨by decide,
   encode_data_success_total.2.1 "bytes32" (by decide),
   by decide,
   encode_data_success_total.2.2.1 (mkRat 3 2) "int256" (by decide),
   (encode_data_success_total.2.2.2.1 "int256").1,
   rfl,
   encode_data_success_total.2.2.2.2.1
     (fun _ _ => (.ok [0] : Except String (List Nat)))
     (ExtractedData.mk true
       [{ path := "a", value := .pbool true, type_hint := some "bool" },
        { path := "b", value := .pnone, type_hint := some "uint256" }] none)
     rfl
     (fun r hr f hf => by
       rcases List.mem_cons.mp hr with rfl | hr2
       · exact PyValue.noConfusion hf
       · rcases List.mem_cons.mp hr2 with rfl | hr3
         · exact PyValue.noConfusion hf
         · exact absurd hr3 (List.not_mem_nil r)),
   rfl,
   rfl,
   encode_data_success_total.2.2.2.2.2.1
     (fun _ _ => (.error "type mismatch" : Except String (List Nat)))
     (ExtractedData.mk true
       [{ path := "a", value := .pbool true, type_hint := some "bool" },
        { path := "b", value := .pnone, type_hint := some "uint256" }] none)
     [.pbool true, .pint 0] "type mismatch" rfl rfl rfl⟩

/-- C4 (amended): for every successful `ApiResponse` whose body is
structured (not a plain string) and every list of response fields,
`_extract_data` returns one result per field, at the same index, with
overall `success = true`; a failing path query on one field degrades that
field to a null-value/null-type result without aborting the others. -/
theorem extract_data_structured_order (pf : PathFinder) (dec : Decryptor)
    (fields : List ResponseField) (resp : ApiResponse)
    (hs : resp.success = true) (hns : ∀ s, resp.data ≠ .pstr s) :
    ∃ ed : ExtractedData,
      extract_data pf dec fields resp = .ok ed
      ∧ ed.success = true
      ∧ ed.results.length = fields.length
      ∧ (∀ i (h1 : i < fields.length) (h2 : i < ed.results.length),
          ed.results.get ⟨i, h2⟩ = extract_field pf dec resp.data (fields.get ⟨i, h1⟩))
      ∧ (∀ i (h1 : i < fields.length) (h2 : i < ed.results.length) (e : String),
          pf (fields.get ⟨i, h1⟩).path resp.data = .error e →
          ed.results.get ⟨i, h2⟩ =
            { path := (fields.get ⟨i, h1⟩).path, value := .pnone, type_hint := none }) := by
  have hmain :
      extract_data pf dec fields resp
        = .ok { success := true, results := fields.map (extract_field pf dec resp.data),
                error := none } := by
    unfold extract_data
    rw [hs]
    cases hd : resp.data with
    | pstr s => exact absurd hd (hns s)
    | pnone => rfl
    | pbool b => rfl
    | pint n => rfl
    | pfloat f => rfl
    | plist xs => rfl
    | pdict kvs => rfl
    | pbytes bs => rfl
  refine ⟨_, hmain, rfl, by simp, ?_, ?_⟩
  · intro i h1 h2
    simp [List.get_eq_getElem, List.getElem_map]
  · intro i h1 h2 e he
    simp only [List.get_eq_getElem, List.getElem_map]
    unfold extract_field
    rw [List.get_eq_getElem] at he
    rw [he]

/-- Path finder for the C4 witness: finds `42` under `"a.b"`, raises on any
other path. -/
def pfWitness : PathFinder := fun path _ =>
  if path = "a.b" then .ok [.pint 42] else .error "jsonpath parse failure"

/-- Witness for C4 (amended): a structured body, two fields of which the
second's path query raises — extraction still yields one result per field
and overall success. -/
theorem extract_data_structured_order_witness :
    (ApiResponse.mk true (some 200) (.pdict [("a", .pdict [("b", .pint 42)])]) none).success
      = true
    ∧ (extract_data pfWitness (fun _ => .error "unused")
        [{ path := "a.b", responseType := "uint256" },
         { path := "bad[", responseType := "string" }]
        (ApiResponse.mk true (some 200) (.pdict [("a", .pdict [("b", .pint 42)])]) none)).isOk
      = true := by
  refine ⟨rfl, ?_⟩
  obtain ⟨ed, hed, -, -, -, -⟩ :=
    extract_data_structured_order pfWitness (fun _ => .error "unused")
      [{ path := "a.b", responseType := "uint256" },
       { path := "bad[", responseType := "string" }]
      (ApiResponse.mk true (some 200) (.pdict [("a", .pdict [("b", .pint 42)])]) none)
      rfl (fun s h => PyValue.noConfusion h)
  rw [hed]
  rfl

/-- Counterexample to C4 as stated: with a successful response whose body
is the plain string `"just text"` and one response field, `_extract_data`
does not return a results list at all — the string branch raises a
pydantic `ValidationError` (the loop passes the whole `ResponseField`
object as the `path` argument), so the universal claim over every
successful `ApiResponse` fails. -/
theorem extract_data_order_claim_cex :
    extract_data (fun _ _ => .ok []) (fun _ => .error "unused")
      [{ path := "ignored", responseType := "string" }]
      (ApiResponse.mk true (some 200) (.pstr "just text") none)
      = .error "ValidationError: path accepts str, got ResponseField"
    ∧ (extract_data (fun _ _ => .ok []) (fun _ => .error "unused")
        [{ path := "ignored", responseType := "string" }]
        (ApiResponse.mk true (some 200) (.pstr "just text") none)).isOk = false :=
  ⟨rfl, rfl⟩

/-- C9: evaluating `_extract_data` at the failing input — a successful
response whose body is the plain string `"hello"` and a non-empty field
list.  The spec says every field maps to the raw string with type hint
`"string"`; the code instead raises a `ValidationError` from the string
branch, because the loop builds `ExtractionResult(path=field_path, ...)`
with the whole `ResponseField` object (the loop index `i` is unused and
the `.path` attribute is never taken), which pydantic v2 rejects for a
`str` field.  With zero fields the branch is never entered and the call
returns an empty success result, confirming the failure is the per-field
construction. -/
theorem extract_data_string_branch_raises :
    (ApiResponse.mk true (some 200) (.pstr "hello") none).success = true
    ∧ extract_data (fun _ _ => .ok []) (fun _ => .error "unused")
        [{ path := "a", responseType := "string" },
         { path := "b", responseType := "uint256" }]
        (ApiResponse.mk true (some 200) (.pstr "hello") none)
      = .error "ValidationError: path accepts str, got ResponseField"
    ∧ extract_data (fun _ _ => .ok []) (fun _ => .error "unused") []
        (ApiResponse.mk true (some 200) (.pstr "hello") none)
      = .ok { success := true, results := [], error := none } :=
  ⟨rfl, rfl, rfl⟩

/-- A successful `mapE` preserves length. -/
theorem mapE_ok_length {α β : Type} (f : α → Except String β) :
    ∀ {l : List α} {l' : List β}, mapE f l = .ok l' → l'.length = l.length
  | [], l', h => by
    unfold mapE at h
    cases h
    rfl
  | a :: as, l', h => by
    unfold mapE at h
    cases hf : f a with
    | error e => rw [hf, except_bind_error] at h; exact Except.noConfusion h
    | ok b =>
      rw [hf, except_bind_ok] at h
      cases hrest : mapE f as with
      | error e => rw [hrest, except_bind_error] at h; exact Except.noConfusion h
      | ok bs =>
        rw [hrest, except_bind_ok] at h
        cases h
        simp [mapE_ok_length f hrest]

/-- A successful `mapE` maps each element pointwise: the output at index
`i` is `f` applied to the input at index `i`. -/
theorem mapE_ok_get {α β : Type} (f : α → Except String β) :
    ∀ {l : List α} {l' : List β}, mapE f l = .ok l' →
      ∀ i (h1 : i < l.length) (h2 : i < l'.length),
        f (l.get ⟨i, h1⟩) = .ok (l'.get ⟨i, h2⟩)
  | [], _, h => by intro i h1 h2; exact absurd h1 (by simp)
  | a :: as, l', h => by
    unfold mapE at h
    cases hf : f a with
    | error e => rw [hf, except_bind_error] at h; exact Except.noConfusion h
    | ok b =>
      rw [hf, except_bind_ok] at h
      cases hrest : mapE f as with
      | error e => rw [hrest, except_bind_error] at h; exact Except.noConfusion h
      | ok bs =>
        rw [hrest, except_bind_ok] at h
        cases h
        intro i h1 h2
        cases i with
        | zero => exact hf
        | succ j => exact mapE_ok_get f hrest j (by simpa using h1) (by simpa using h2)

/-- What one successful `processKeyValue` does: an unflagged pair passes
through unchanged; a flagged pair comes out with the same key, the
decrypted value, and the flag cleared. -/
theorem processKeyValue_ok_spec (dec : Decryptor) (kv kv' : KeyValue)
    (h : processKeyValue dec kv = .ok kv') :
    (kv.encrypted = false → kv' = kv)
    ∧ (kv.encrypted = true →
        dec kv.value = .ok kv'.value ∧ kv'.key = kv.key ∧ kv'.encrypted = false) := by
  unfold processKeyValue at h
  cases he : kv.encrypted with
  | false =>
    simp only [he, Bool.false_eq_true, if_false] at h
    cases h
    exact ⟨fun _ => rfl, fun hc => Bool.noConfusion hc⟩
  | true =>
    simp only [he, if_true] at h
    cases hd : dec kv.value with
    | error e => rw [hd, except_bind_error] at h; exact Except.noConfusion h
    | ok v =>
      rw [hd, except_bind_ok] at h
      cases h
      exact ⟨fun hc => Bool.noConfusion hc, fun _ => ⟨rfl, rfl, rfl⟩⟩

/-- What one successful `processResponseField` does: path and type are
copied; a missing condition stays missing; a present condition keeps its
operator, has its value decrypted when flagged, and comes out with the
flag cleared. -/
theorem processResponseField_ok_spec (dec : Decryptor) (f g : ResponseField)
    (h : processResponseField dec f = .ok g) :
    g.path = f.path
    ∧ g.responseType = f.responseType
    ∧ (f.condition = none → g.condition = none)
    ∧ (∀ c : Condition, f.condition = some c → c.encrypted = false →
        g.condition = some { operator := c.operator, value := c.value, encrypted := false })
    ∧ (∀ c : Condition, f.condition = some c → c.encrypted = true →
        ∃ pt, dec c.value = .ok pt
          ∧ g.condition = some { operator := c.operator, value := pt, encrypted := false }) := by
  unfold processResponseField at h
  cases hc : f.condition with
  | none =>
    simp only [hc] at h
    cases h
    exact ⟨rfl, rfl, fun _ => rfl,
      fun c' hcc => Option.noConfusion hcc,
      fun c' hcc => Option.noConfusion hcc⟩
  | some c =>
    simp only [hc] at h
    cases hce : c.encrypted with
    | false =>
      simp only [hce, Bool.false_eq_true, if_false] at h
      rw [show (pure c.value : Except String String) = .ok c.value from rfl,
        except_bind_ok] at h
      cases h
      refine ⟨rfl, rfl, fun hn => Option.noConfusion hn, ?_, ?_⟩
      · intro c' hcc hce'
        cases Option.some.inj hcc
        rfl
      · intro c' hcc hce'
        cases Option.some.inj hcc
        rw [hce] at hce'
        exact Bool.noConfusion hce'
    | true =>
      simp only [hce, if_true] at h
      cases hd : dec c.value with
      | error e => rw [hd, except_bind_error] at h; exact Except.noConfusion h
      | ok pt =>
        rw [hd, except_bind_ok] at h
        cases h
        refine ⟨rfl, rfl, fun hn => Option.noConfusion hn, ?_, ?_⟩
        · intro c' hcc hce'
          cases Option.some.inj hcc
          rw [hce] at hce'
          exact Bool.noConfusion hce'
        · intro c' hcc hce'
          cases Option.some.inj hcc
          exact ⟨pt, hd, rfl⟩

/-- C3 (amended): `_process_encrypted_fields` produces a new `RequestData`
in which the URL, body, headers and query parameters flagged `encrypted`
are replaced by their plaintext with the flag cleared and unflagged ones
pass through unchanged — but the condition values inside `responseFields`
are *not* left untouched: a present condition is rebuilt with its value
eagerly decrypted when flagged and its `encrypted` flag cleared (so the
lazy decryption inside condition evaluation becomes a no-op). -/
theorem resolve_confidential_fields_amended (dec : Decryptor) (request out : RequestData)
    (h : process_encrypted_fields dec request = .ok out) :
    out.method = request.method
    ∧ out.urlEncrypted = false
    ∧ out.bodyEncrypted = false
    ∧ (request.urlEncrypted = false → out.url = request.url)
    ∧ (request.urlEncrypted = true → dec request.url = .ok out.url)
    ∧ (request.bodyEncrypted = false → out.body = request.body)
    ∧ (request.bodyEncrypted = true → dec request.body = .ok out.body)
    ∧ out.headers.length = request.headers.length
    ∧ (∀ i (h1 : i < request.headers.length) (h2 : i < out.headers.length),
        ((request.headers.get ⟨i, h1⟩).encrypted = false →
          out.headers.get ⟨i, h2⟩ = request.headers.get ⟨i, h1⟩)
        ∧ ((request.headers.get ⟨i, h1⟩).encrypted = true →
          dec (request.headers.get ⟨i, h1⟩).value = .ok (out.headers.get ⟨i, h2⟩).value
          ∧ (out.headers.get ⟨i, h2⟩).key = (request.headers.get ⟨i, h1⟩).key
          ∧ (out.headers.get ⟨i, h2⟩).encrypted = false))
    ∧ out.queryParams.length = request.queryParams.length
    ∧ (∀ i (h1 : i < request.queryParams.length) (h2 : i < out.queryParams.length),
        ((request.queryParams.get ⟨i, h1⟩).encrypted = false →
          out.queryParams.get ⟨i, h2⟩ = request.queryParams.get ⟨i, h1⟩)
        ∧ ((request.queryParams.get ⟨i, h1⟩).encrypted = true →
          dec (request.queryParams.get ⟨i, h1⟩).value = .ok (out.queryParams.get ⟨i, h2⟩).value
          ∧ (out.queryParams.get ⟨i, h2⟩).key = (request.queryParams.get ⟨i, h1⟩).key
          ∧ (out.queryParams.get ⟨i, h2⟩).encrypted = false))
    ∧ out.responseFields.length = request.responseFields.length
    ∧ (∀ i (h1 : i < request.responseFields.length) (h2 : i < out.responseFields.length),
        (out.responseFields.get ⟨i, h2⟩).path = (request.responseFields.get ⟨i, h1⟩).path
        ∧ (out.responseFields.get ⟨i, h2⟩).responseType
            = (request.responseFields.get ⟨i, h1⟩).responseType
        ∧ ((request.responseFields.get ⟨i, h1⟩).condition = none →
            (out.responseFields.get ⟨i, h2⟩).condition = none)
        ∧ (∀ c : Condition, (request.responseFields.get ⟨i, h1⟩).condition = some c →
            c.encrypted = false →
            (out.responseFields.get ⟨i, h2⟩).condition
              = some { operator := c.operator, value := c.value, encrypted := false })
        ∧ (∀ c : Condition, (request.responseFields.get ⟨i, h1⟩).condition = some c →
            c.encrypted = true →
            ∃ pt, dec c.value = .ok pt
              ∧ (out.responseFields.get ⟨i, h2⟩).condition
                  = some { operator := c.operator, value := pt, encrypted := false })) := by
  unfold process_encrypted_fields at h
  cases hurl : (if request.urlEncrypted then dec request.url else pure request.url) with
  | error e => rw [hurl, except_bind_error] at h; exact Except.noConfusion h
  | ok u =>
  rw [hurl, except_bind_ok] at h
  cases hbody : (if request.bodyEncrypted then dec request.body else pure request.body) with
  | error e => rw [hbody, except_bind_error] at h; exact Except.noConfusion h
  | ok b =>
  rw [hbody, except_bind_ok] at h
  cases hh : mapE (processKeyValue dec) request.headers with
  | error e => rw [hh, except_bind_error] at h; exact Except.noConfusion h
  | ok headers' =>
  rw [hh, except_bind_ok] at h
  cases hq : mapE (processKeyValue dec) request.queryParams with
  | error e => rw [hq, except_bind_error] at h; exact Except.noConfusion h
  | ok queryParams' =>
  rw [hq, except_bind_ok] at h
  cases hf : mapE (processResponseField dec) request.responseFields with
  | error e => rw [hf, except_bind_error] at h; exact Except.noConfusion h
  | ok responseFields' =>
  rw [hf, except_bind_ok] at h
  cases h
  refine ⟨rfl, rfl, rfl, ?_, ?_, ?_, ?_, mapE_ok_length _ hh, ?_,
    mapE_ok_length _ hq, ?_, mapE_ok_length _ hf, ?_⟩
  · intro he
    simp only [he, Bool.false_eq_true, if_false] at hurl
    exact (Except.ok.inj hurl).symm
  · intro he
    simp only [he, eq_self_iff_true, if_true] at hurl
    exact hurl
  · intro he
    simp only [he, Bool.false_eq_true, if_false] at hbody
    exact (Except.ok.inj hbody).symm
  · intro he
    simp only [he, eq_self_iff_true, if_true] at hbody
    exact hbody
  · intro i h1 h2
    exact processKeyValue_ok_spec dec _ _ (mapE_ok_get _ hh i h1 h2)
  · intro i h1 h2
    exact processKeyValue_ok_spec dec _ _ (mapE_ok_get _ hq i h1 h2)
  · intro i h1 h2
    exact processResponseField_ok_spec dec _ _ (mapE_ok_get _ hf i h1 h2)

/-- The request of the C3 counterexample: one response field with an
encrypted condition value. -/
def cexRequest : RequestData :=
  { method := .GET, url := "https://api.example",
    responseFields :=
      [{ path := "price", responseType := "uint256",
         condition := some { operator := "gt", value := "CIPHERTEXT", encrypted := true } }] }

/-- Counterexample to C3 as stated: resolving the confidential fields of
`cexRequest` with a decryptor returning `"SECRET-THRESHOLD"` rewrites the
condition inside `responseFields` — decrypted value, flag cleared — so the
condition values are *not* left untouched by field resolution. -/
theorem resolve_confidential_fields_claim_cex :
    process_encrypted_fields (fun _ => .ok "SECRET-THRESHOLD") cexRequest
      = .ok { method := .GET, url := "https://api.example",
              responseFields :=
                [{ path := "price", responseType := "uint256",
                   condition := some { operator := "gt", value := "SECRET-THRESHOLD",
                                       encrypted := false } }] }
    ∧ [some { operator := "gt", value := "SECRET-THRESHOLD", encrypted := false }]
        ≠ cexRequest.responseFields.map ResponseField.condition :=
  ⟨rfl, by decide⟩

/-- The request of the C3 witness: encrypted URL, one encrypted header,
one plaintext query parameter, plaintext body, and one response field with
an encrypted condition. -/
def witRequest : RequestData :=
  { method := .POST, url := "CIPHURL", urlEncrypted := true,
    headers := [{ key := "X-Key", value := "CIPHKEY", encrypted := true }],
    queryParams := [{ key := "q", value := "v", encrypted := false }],
    body := "data", bodyEncrypted := false,
    responseFields :=
      [{ path := "ok", responseType := "bool",
         condition := some { operator := "eq", value := "CIPHCOND", encrypted := true } }] }

/-- The resolution of `witRequest` under a decryptor returning `"PLAIN"`. -/
def witResolved : RequestData :=
  { method := .POST, url := "PLAIN", urlEncrypted := false,
    headers := [{ key := "X-Key", value := "PLAIN", encrypted := false }],
    queryParams := [{ key := "q", value := "v", encrypted := false }],
    body := "data", bodyEncrypted := false,
    responseFields :=
      [{ path := "ok", responseType := "bool",
         condition := some { operator := "eq", value := "PLAIN", encrypted := false } }] }

/-- Witness for C3 (amended): the resolution of `witRequest` succeeds, and
the amended characterization applies to it. -/
theorem resolve_confidential_fields_amended_witness :
    process_encrypted_fields (fun _ => .ok "PLAIN") witRequest = .ok witResolved
    ∧ witResolved.urlEncrypted = false
    ∧ witResolved.headers.length = witRequest.headers.length :=
  ⟨rfl,
   (resolve_confidential_fields_amended (fun _ => .ok "PLAIN") witRequest witResolved rfl).2.1,
   (resolve_confidential_fields_amended (fun _ => .ok "PLAIN") witRequest witResolved
      rfl).2.2.2.2.2.2.2.1⟩

/-- Every byte emitted by the UTF-8 encoder is below 256. -/
theorem utf8EncodeChar_bound (c : Char) : ∀ b ∈ utf8EncodeChar c, b < 256 := by
  have hv : c.toNat < 55296 ∨ (57343 < c.toNat ∧ c.toNat < 1114112) := c.valid
  intro b hb
  simp only [utf8EncodeChar] at hb
  split at hb
  · simp only [List.mem_singleton] at hb
    omega
  · split at hb
    · simp only [List.mem_cons, List.not_mem_nil, or_false] at hb
      rcases hb with rfl | rfl <;> omega
    · split at hb
      · simp only [List.mem_cons, List.not_mem_nil, or_false] at hb
        rcases hb with rfl | rfl | rfl <;> omega
      · simp only [List.mem_cons, List.not_mem_nil, or_false] at hb
        rcases hb with rfl | rfl | rfl | rfl <;> omega

/-- Every byte of an encoded character sequence is below 256. -/
theorem utf8Bytes_bound : ∀ cs : List Char, ∀ b ∈ utf8Bytes cs, b < 256
  | [], b, hb => absurd hb (List.not_mem_nil b)
  | c :: cs, b, hb => by
    rw [utf8Bytes] at hb
    rcases List.mem_append.mp hb with h | h
    · exact utf8EncodeChar_bound c b h
    · exact utf8Bytes_bound cs b h

/-- Decoding a well-formed two-byte sequence. -/
theorem utf8Decode_two (b1 b2 : Nat) (rest : List Nat)
    (hb1 : 194 ≤ b1) (hb1' : b1 < 224) (hb2 : 128 ≤ b2) (hb2' : b2 < 192) :
    utf8Decode (b1 :: b2 :: rest)
      = (utf8Decode rest).map (fun cs => Char.ofNat ((b1 - 192) * 64 + (b2 - 128)) :: cs) := by
  rw [utf8Decode]
  rw [if_neg (by omega), if_neg (by omega), if_pos (by omega)]
  rw [utf8DecodeTail1, if_pos ⟨hb2, by omega⟩]

/-- Decoding a well-formed three-byte sequence. -/
theorem utf8Decode_three (b1 b2 b3 : Nat) (rest : List Nat)
    (hb1 : 224 ≤ b1) (hb1' : b1 < 240) (hb2 : 128 ≤ b2) (hb2' : b2 < 192)
    (hb3 : 128 ≤ b3) (hb3' : b3 < 192)
    (hn : 2048 ≤ (b1 - 224) * 4096 + (b2 - 128) * 64 + (b3 - 128))
    (hs : ¬(55296 ≤ (b1 - 224) * 4096 + (b2 - 128) * 64 + (b3 - 128)
            ∧ (b1 - 224) * 4096 + (b2 - 128) * 64 + (b3 - 128) < 57344)) :
    utf8Decode (b1 :: b2 :: b3 :: rest)
      = (utf8Decode rest).map
          (fun cs => Char.ofNat ((b1 - 224) * 4096 + (b2 - 128) * 64 + (b3 - 128)) :: cs) := by
  rw [utf8Decode]
  rw [if_neg (by omega), if_neg (by omega), if_neg (by omega), if_pos (by omega)]
  rw [utf8DecodeTail2, if_pos ⟨⟨hb2, by omega⟩, ⟨hb3, by omega⟩, hn, hs⟩]

/-- Decoding a well-formed four-byte sequence. -/
theorem utf8Decode_four (b1 b2 b3 b4 : Nat) (rest : List Nat)
    (hb1 : 240 ≤ b1) (hb1' : b1 < 245) (hb2 : 128 ≤ b2) (hb2' : b2 < 192)
    (hb3 : 128 ≤ b3) (hb3' : b3 < 192) (hb4 : 128 ≤ b4) (hb4' : b4 < 192)
    (hn : 65536 ≤ (b1 - 240) * 262144 + (b2 - 128) * 4096 + (b3 - 128) * 64 + (b4 - 128))
    (hn' : (b1 - 240) * 262144 + (b2 - 128) * 4096 + (b3 - 128) * 64 + (b4 - 128) < 1114112) :
    utf8Decode (b1 :: b2 :: b3 :: b4 :: rest)
      = (utf8Decode rest).map
          (fun cs =>
            Char.ofNat ((b1 - 240) * 262144 + (b2 - 128) * 4096 + (b3 - 128) * 64 + (b4 - 128))
              :: cs) := by
  rw [utf8Decode]
  rw [if_neg (by omega), if_neg (by omega), if_neg (by omega), if_neg (by omega),
    if_pos (by omega)]
  rw [utf8DecodeTail3, if_pos ⟨⟨hb2, by omega⟩, ⟨hb3, by omega⟩, ⟨hb4, by omega⟩, hn, hn'⟩]

/-- Decoding the encoding of one character at the front of a byte stream
peels off exactly that character. -/
theorem utf8Decode_encodeChar (c : Char) (rest : List Nat) :
    utf8Decode (utf8EncodeChar c ++ rest) = (utf8Decode rest).map (fun cs => c :: cs) := by
  have hv : c.toNat < 55296 ∨ (57343 < c.toNat ∧ c.toNat < 1114112) := c.valid
  have hofn : Char.ofNat c.toNat = c := Char.ofNat_toNat c
  by_cases h1 : c.toNat < 128
  · have henc : utf8EncodeChar c = [c.toNat] := by
      unfold utf8EncodeChar
      rw [if_pos h1]
    rw [henc, List.cons_append, List.nil_append]
    simp only [utf8Decode]
    rw [if_pos h1, hofn]
  · by_cases h2 : c.toNat < 2048
    · have henc : utf8EncodeChar c = [192 + c.toNat / 64, 128 + c.toNat % 64] := by
        unfold utf8EncodeChar
        rw [if_neg h1, if_pos h2]
      rw [henc, List.cons_append, List.cons_append, List.nil_append]
      rw [utf8Decode_two _ _ _ (by omega) (by omega) (by omega) (by omega)]
      have harg : (192 + c.toNat / 64 - 192) * 64 + (128 + c.toNat % 64 - 128) = c.toNat := by
        omega
      rw [harg, hofn]
    · by_cases h3 : c.toNat < 65536
      · have henc :
            utf8EncodeChar c
              = [224 + c.toNat / 4096, 128 + c.toNat / 64 % 64, 128 + c.toNat % 64] := by
          unfold utf8EncodeChar
          rw [if_neg h1, if_neg h2, if_pos h3]
        rw [henc, List.cons_append, List.cons_append, List.cons_append, List.nil_append]
        rw [utf8Decode_three _ _ _ _ (by omega) (by omega) (by omega) (by omega) (by omega)
          (by omega) (by omega) (by omega)]
        have harg :
            (224 + c.toNat / 4096 - 224) * 4096 + (128 + c.toNat / 64 % 64 - 128) * 64
              + (128 + c.toNat % 64 - 128) = c.toNat := by
          omega
        rw [harg, hofn]
      · have henc :
            utf8EncodeChar c
              = [240 + c.toNat / 262144, 128 + c.toNat / 4096 % 64, 128 + c.toNat / 64 % 64,
                 128 + c.toNat % 64] := by
          unfold utf8EncodeChar
          rw [if_neg h1, if_neg h2, if_neg h3]
        rw [henc, List.cons_append, List.cons_append, List.cons_append, List.cons_append,
          List.nil_append]
        rw [utf8Decode_four _ _ _ _ _ (by omega) (by omega) (by omega) (by omega) (by omega)
          (by omega) (by omega) (by omega) (by omega) (by omega)]
        have harg :
            (240 + c.toNat / 262144 - 240) * 262144 + (128 + c.toNat / 4096 % 64 - 128) * 4096
              + (128 + c.toNat / 64 % 64 - 128) * 64 + (128 + c.toNat % 64 - 128) = c.toNat := by
          omega
        rw [harg, hofn]

/-- UTF-8 round-trip: decoding the encoding of any character sequence
returns it unchanged. -/
theorem utf8Bytes_decode : ∀ cs : List Char, utf8Decode (utf8Bytes cs) = some cs
  | [] => rfl
  | c :: cs => by
    rw [utf8Bytes, utf8Decode_encodeChar, utf8Bytes_decode cs]
    rfl

/-- Alphabet lookup inverts the sextet table. -/
theorem b64Idx_b64Char : ∀ k : Nat, k < 64 → b64Idx (b64Char k) = some k := by decide

/-- No alphabet character is the padding character. -/
theorem b64Char_ne_pad : ∀ k : Nat, k < 64 → b64Char k ≠ '=' := by decide

/-- Base64 round-trip: decoding the encoding of any byte sequence (bytes
below 256) returns it unchanged. -/
theorem b64Decode_encode :
    ∀ bs : List Nat, (∀ b ∈ bs, b < 256) → b64DecodeChars (b64EncodeChars bs) = some bs
  | [], _ => rfl
  | [a], h => by
    have ha : a < 256 := h a (by simp)
    rw [b64EncodeChars, b64DecodeChars,
      b64Idx_b64Char (a / 4) (by omega), b64Idx_b64Char (a % 4 * 16) (by omega)]
    simp only [Option.some_bind]
    simp only [and_self, if_true]
    simp only [Option.some.injEq, List.cons.injEq, and_true]
    omega
  | [a, b], h => by
    have ha : a < 256 := h a (by simp)
    have hb : b < 256 := h b (by simp)
    rw [b64EncodeChars, b64DecodeChars,
      b64Idx_b64Char (a / 4) (by omega), b64Idx_b64Char (a % 4 * 16 + b / 16) (by omega)]
    simp only [Option.some_bind]
    rw [if_neg (b64Char_ne_pad (b % 16 * 4) (by omega)),
      b64Idx_b64Char (b % 16 * 4) (by omega)]
    simp only [Option.some_bind]
    simp only [if_true]
    simp only [Option.some.injEq, List.cons.injEq, and_true]
    omega
  | a :: b :: c :: rest, h => by
    have ha : a < 256 := h a (by simp)
    have hb : b < 256 := h b (by simp)
    have hc : c < 256 := h c (by simp)
    have ih := b64Decode_encode rest (fun x hx => h x (by simp [hx]))
    rw [b64EncodeChars, b64DecodeChars,
      b64Idx_b64Char (a / 4) (by omega), b64Idx_b64Char (a % 4 * 16 + b / 16) (by omega)]
    simp only [Option.some_bind]
    rw [if_neg (b64Char_ne_pad (b % 16 * 4 + c / 64) (by omega)),
      b64Idx_b64Char (b % 16 * 4 + c / 64) (by omega)]
    simp only [Option.some_bind]
    rw [if_neg (b64Char_ne_pad (c % 64) (by omega)),
      b64Idx_b64Char (c % 64) (by omega)]
    simp only [Option.some_bind]
    rw [ih]
    simp only [Option.some_bind, Option.some.injEq, List.cons.injEq, and_true]
    omega

/-- C2: with the codec initialized and holding both the private key and
the matching public key, decrypting the encryption of any string returns
exactly that string — for every ECIES scheme whose decryption inverts its
encryption on byte sequences (the library contract for a matched
keypair). -/
theorem encrypt_decrypt_roundtrip (E : EciesScheme) (cm : CryptoManager)
    (sk pk : String) (x : String)
    (hinit : cm.isInit = true)
    (hsk : cm.private_key = some sk) (hpk : cm.public_key = some pk)
    (hsk' : sk ≠ "") (hpk' : pk ≠ "")
    (hE : ∀ bs : List Nat, (∀ b ∈ bs, b < 256) →
        E.eciesDecrypt sk (E.eciesEncrypt pk bs) = some bs
        ∧ ∀ b' ∈ E.eciesEncrypt pk bs, b' < 256) :
    (encrypt_for_contract E cm x) >>= (decrypt_from_contract E cm) = .ok x := by
  have hbound := utf8Bytes_bound x.data
  obtain ⟨hdec, hctbound⟩ := hE (utf8Bytes x.data) hbound
  have henc : encrypt_for_contract E cm x
      = .ok ⟨b64EncodeChars (E.eciesEncrypt pk (strUtf8 x))⟩ := by
    unfold encrypt_for_contract
    rw [hinit, hpk]
    simp only [Bool.true_eq_false, if_false, if_neg hpk']
  rw [henc, except_bind_ok]
  unfold decrypt_from_contract
  rw [hinit, hsk]
  simp only [Bool.true_eq_false, if_false, if_neg hsk']
  simp only [strUtf8, b64Decode_encode _ hctbound, hdec, utf8Bytes_decode]

/-- The trivial ECIES scheme of the C2 witness: encryption and decryption
are the identity on byte sequences. -/
def idEcies : EciesScheme :=
  { eciesEncrypt := fun _ bs => bs, eciesDecrypt := fun _ bs => some bs }

/-- The codec state of the C2 witness: initialized, with both keys set. -/
def cmWitness : CryptoManager :=
  { isInit := true, private_key := some "0xsk", public_key := some "0xpk" }

/-- Witness for C2: the full encrypt-then-decrypt pipeline at the concrete
string `"Hi!"` under the identity scheme and matched keys. -/
theorem encrypt_decrypt_roundtrip_witness :
    cmWitness.isInit = true
    ∧ cmWitness.private_key = some "0xsk"
    ∧ cmWitness.public_key = some "0xpk"
    ∧ (encrypt_for_contract idEcies cmWitness "Hi!")
        >>= (decrypt_from_contract idEcies cmWitness) = .ok "Hi!" :=
  ⟨rfl, rfl, rfl,
   encrypt_decrypt_roundtrip idEcies cmWitness "0xsk" "0xpk" "Hi!" rfl rfl rfl
     (by decide) (by decide) (fun bs hb => ⟨rfl, hb⟩)⟩
